import Mathlib

/-!
Verification of the apple-mcp security/resilience layer.

Strings of the TypeScript source are modelled as `List Char`; JavaScript
numbers are modelled as `ℚ` (with `Option ℚ` where `NaN` can occur) or as
`Int`/`Nat` where the source only ever holds integers; fallible code is
modelled with `Except`.  External collaborators (the AppleScript
interpreter, the JXA bridge, `JSON.parse` from the JS runtime, and the
`zod` e-mail regular expression, none of which are code of this
repository) are modelled as explicit oracle parameters, so that every
theorem quantifies over their behaviour.
-/

/-- Convert a Lean string literal to the `List Char` model of JS strings. -/
def cs (s : String) : List Char := s.toList

/-- `str.replace(/<target>/g, <repl>)` for a single-character pattern:
every occurrence of `target` is replaced by `repl`. -/
def replaceAllChar (target : Char) (repl : List Char) : List Char → List Char
  | [] => []
  | c :: rest => (if c = target then repl else [c]) ++ replaceAllChar target repl rest

/-- `escapeAppleScriptString` (src/utils/security.ts lines 35-42): escapes
backslash, double-quote, newline, carriage return and tab, in that order,
backslash first. -/
def escapeAppleScriptString (s : List Char) : List Char :=
  replaceAllChar '\t' ['\\', 't']
    (replaceAllChar '\r' ['\\', 'r']
      (replaceAllChar '\n' ['\\', 'n']
        (replaceAllChar '"' ['\\', '"']
          (replaceAllChar '\\' ['\\', '\\'] s))))

/-- The per-character expansion that `escapeAppleScriptString` performs. -/
def escChar (c : Char) : List Char :=
  if c = '\\' then ['\\', '\\']
  else if c = '"' then ['\\', '"']
  else if c = '\n' then ['\\', 'n']
  else if c = '\r' then ['\\', 'r']
  else if c = '\t' then ['\\', 't']
  else [c]

/-- The unescaper described by claim C1: scan left to right and map each
two-character escape sequence (backslash-backslash, backslash-quote,
backslash-n, backslash-r, backslash-t) back to its literal character. -/
def unescapeAppleScriptString : List Char → List Char
  | [] => []
  | [c] => [c]
  | a :: b :: rest =>
    if a = '\\' then
      if b = '\\' then '\\' :: unescapeAppleScriptString rest
      else if b = '"' then '"' :: unescapeAppleScriptString rest
      else if b = 'n' then '\n' :: unescapeAppleScriptString rest
      else if b = 'r' then '\r' :: unescapeAppleScriptString rest
      else if b = 't' then '\t' :: unescapeAppleScriptString rest
      else a :: unescapeAppleScriptString (b :: rest)
    else a :: unescapeAppleScriptString (b :: rest)

/-- Split a string around the first occurrence of `'?'`:
`some (before, after)` with `before ++ '?' :: after` the input, or `none`
if `'?'` does not occur.  This is the search step of
`String.prototype.replace('?', ...)`. -/
def findSplit : List Char → Option (List Char × List Char)
  | [] => none
  | c :: rest =>
    if c = '?' then some ([], rest)
    else (findSplit rest).map (fun p => (c :: p.1, p.2))

/-- The replacement-string substitution of JavaScript
`String.prototype.replace` (`GetSubstitution`): in the replacement text,
`$$` inserts `$`, `$&` inserts the matched text, a dollar followed by a
backquote inserts the text before the match, `$` followed by `'` inserts
the text after the match; anything else is literal. -/
def getSub : List Char → List Char → List Char → List Char → List Char
  | [], _, _, _ => []
  | c :: rest, b, m, a =>
    if c = '$' then
      match rest with
      | [] => ['$']
      | d :: rest2 =>
        if d = '$' then '$' :: getSub rest2 b m a
        else if d = '&' then m ++ getSub rest2 b m a
        else if d = Char.ofNat 96 then b ++ getSub rest2 b m a
        else if d = '\'' then a ++ getSub rest2 b m a
        else '$' :: d :: getSub rest2 b m a
    else c :: getSub rest b m a

/-- `s.replace('?', rep)` — JavaScript string `replace` with the string
pattern `"?"`: only the first occurrence is replaced, and the replacement
text undergoes `$`-substitution. -/
def jsReplaceQ (s rep : List Char) : List Char :=
  match findSplit s with
  | none => s
  | some (b, a) => b ++ getSub rep b ['?'] a ++ a

/-- Plain first-occurrence replacement of `'?'` by `rep` (no
`$`-substitution); used to relate `jsReplaceQ` to the specification-side
template substitution. -/
def replaceFirstQ (rep : List Char) : List Char → List Char
  | [] => []
  | c :: rest => if c = '?' then rep ++ rest else c :: replaceFirstQ rep rest

/-- A parameter of `executeSqliteQuery`: `string | number`. -/
inductive SqlParam
  | str (s : List Char)
  | num (n : Int)
deriving DecidableEq

/-- How `executeSqliteQuery` (src/utils/database.ts lines 26-29) renders a
parameter: a string is single-quote-escaped (quotes doubled) and wrapped
in single quotes, a number is rendered with `String(param)`. -/
def renderParam : SqlParam → List Char
  | SqlParam.str s => '\'' :: (replaceAllChar '\'' ['\'', '\''] s ++ ['\''])
  | SqlParam.num n => (toString n).toList

/-- The query-building loop of `executeSqliteQuery` (src/utils/database.ts
lines 21-33): for each parameter in order, `parameterizedQuery =
parameterizedQuery.replace('?', escaped)`. -/
def parameterizeQuery (query : List Char) (params : List SqlParam) : List Char :=
  params.foldl (fun q p => jsReplaceQ q (renderParam p)) query

/-- Specification-side substitution, following the claim's words: the i-th
`?` of the **original** template receives exactly the i-th rendered
parameter, left to right. -/
def specTemplateSubst : List Char → List (List Char) → List Char
  | q, [] => q
  | [], _ => []
  | c :: rest, r :: rs =>
    if c = '?' then r ++ specTemplateSubst rest rs
    else c :: specTemplateSubst rest (r :: rs)

/-- One entry of a `RateLimiter`'s map (src/utils/security.ts lines 83-86):
`count` and `resetAt` (the claim's `windowResetAt`). -/
structure RateLimitEntry where
  count : Nat
  resetAt : Nat
deriving DecidableEq

/-- The `RateLimiter` class (src/utils/security.ts lines 88-119):
`maxRequests`, `windowMs`, and the key-indexed entry map. -/
structure RateLimiter where
  maxRequests : Nat
  windowMs : Nat
  limits : String → Option RateLimitEntry

/-- `RateLimiter.check` (src/utils/security.ts lines 96-114): on a missing
entry or once `entry.resetAt <= now`, store `{count: 1, resetAt: now +
windowMs}` and allow; otherwise deny without mutation when `count >=
maxRequests`, else increment `count` and allow. -/
def RateLimiter.check (rl : RateLimiter) (key : String) (now : Nat) :
    Bool × RateLimiter :=
  match rl.limits key with
  | none =>
    (true, { rl with
      limits := fun k => if k = key then some ⟨1, now + rl.windowMs⟩ else rl.limits k })
  | some entry =>
    if entry.resetAt ≤ now then
      (true, { rl with
        limits := fun k => if k = key then some ⟨1, now + rl.windowMs⟩ else rl.limits k })
    else if rl.maxRequests ≤ entry.count then
      (false, rl)
    else
      (true, { rl with
        limits := fun k =>
          if k = key then some ⟨entry.count + 1, entry.resetAt⟩ else rl.limits k })

/-- Iterate `check` on one key at the given sequence of clock readings,
collecting the returned booleans and the final limiter state. -/
def RateLimiter.runChecks (rl : RateLimiter) (key : String) :
    List Nat → List Bool × RateLimiter
  | [] => ([], rl)
  | t :: ts =>
    ((rl.check key t).1 :: ((rl.check key t).2.runChecks key ts).1,
      ((rl.check key t).2.runChecks key ts).2)

/-- JavaScript string truthiness for an optional string value:
`undefined` and the empty string are falsy. -/
def jsStringFalsy : Option String → Bool
  | none => true
  | some s => s = ""

/-- The `authToken` field of `securityConfig` (src/utils/security.ts line
261): the raw value of the `MCP_AUTH_TOKEN` environment variable. -/
def envAuthToken (env : String → Option String) : Option String :=
  env ("MCP_AUTH_TOKEN")

/-- `checkAuthentication` (src/utils/security.ts lines 267-272): if
`!securityConfig.authToken` return true (no auth configured), else strict
equality `token === securityConfig.authToken`. -/
def checkAuthentication (authToken : Option String) (token : Option String) : Bool :=
  if jsStringFalsy authToken then true
  else token == authToken

/-- `sanitizeLimit` (src/utils/security.ts lines 249-255 and
src/utils/database.ts lines 85-91): `Math.floor` the numeric input (a
`NaN` input, modelled as `none`, stays `NaN`); if the result is `NaN` or
`< 1` return 10, else cap at `max`.  JS numbers are modelled as `Option ℚ`
with `none` for `NaN`. -/
def sanitizeLimit (limit : Option ℚ) (max : Int) : Int :=
  match limit with
  | none => 10
  | some q => if ⌊q⌋ < 1 then 10 else min ⌊q⌋ max

/-- The JavaScript whitespace class (`\s`, also used by `String.trim`):
ASCII whitespace plus the Unicode space separators, NEL omitted points
being irrelevant to the source's ASCII-only patterns. -/
def isJsWs (c : Char) : Bool :=
  c = ' ' || c = '\t' || c = '\n' || c = '\r' ||
  c = Char.ofNat 11 || c = Char.ofNat 12 ||
  c = Char.ofNat 0xa0 || c = Char.ofNat 0x1680 ||
  (Char.ofNat 0x2000 ≤ c && c ≤ Char.ofNat 0x200a) ||
  c = Char.ofNat 0x2028 || c = Char.ofNat 0x2029 || c = Char.ofNat 0x202f ||
  c = Char.ofNat 0x205f || c = Char.ofNat 0x3000 || c = Char.ofNat 0xfeff

/-- JavaScript `String.prototype.trim`: strip leading and trailing
whitespace. -/
def jsTrim (s : List Char) : List Char :=
  ((s.dropWhile isJsWs).reverse.dropWhile isJsWs).reverse

/-- ASCII lower-casing, the case folding relevant to the source's
case-insensitive regular expressions (all their letters are ASCII). -/
def toLowerAscii (c : Char) : Char :=
  if 'A' ≤ c && c ≤ 'Z' then Char.ofNat (c.toNat + 32) else c

/-- A token of one of the `DANGEROUS_PATTERNS` regular expressions: a
literal character (matched case-insensitively) or `\s+` (one or more
whitespace characters). -/
inductive PTok
  | lit (c : Char)
  | ws
deriving DecidableEq

/-- Match a token sequence against a prefix of the text.  `\s+` before a
non-whitespace literal (the only shape occurring in the source's
patterns) is equivalent to consuming the maximal whitespace run. -/
def matchToksAt : List PTok → List Char → Bool
  | [], _ => true
  | PTok.lit c :: ts, l =>
    match l with
    | [] => false
    | x :: xs => (toLowerAscii x = toLowerAscii c) && matchToksAt ts xs
  | PTok.ws :: ts, l =>
    match l with
    | [] => false
    | x :: xs => isJsWs x && matchToksAt ts (xs.dropWhile isJsWs)

/-- Unanchored regular-expression search (`RegExp.prototype.test`): try
the pattern at every start position. -/
def searchPat (ts : List PTok) : List Char → Bool
  | [] => matchToksAt ts []
  | x :: rest => matchToksAt ts (x :: rest) || searchPat ts rest

/-- Literal characters of a pattern. -/
def litToks (s : String) : List PTok := s.toList.map PTok.lit

/-- `DANGEROUS_PATTERNS` (src/utils/security.ts lines 65-76): the ten
case-insensitive signatures, `\s+` between words where the source has
it. -/
def DANGEROUS_PATTERNS : List (List PTok) := [
  litToks ("tell") ++ [PTok.ws] ++ litToks ("application") ++ [PTok.ws] ++
    litToks ("\"System") ++ [PTok.ws] ++ litToks ("Events\""),
  litToks ("do") ++ [PTok.ws] ++ litToks ("shell") ++ [PTok.ws] ++ litToks ("script"),
  litToks ("osascript"),
  litToks ("eval"),
  litToks ("exec"),
  litToks ("system("),
  litToks ("DELETE") ++ [PTok.ws] ++ litToks ("FROM"),
  litToks ("DROP") ++ [PTok.ws] ++ litToks ("TABLE"),
  litToks ("UPDATE") ++ [PTok.ws] ++ litToks ("SET"),
  litToks ("INSERT") ++ [PTok.ws] ++ litToks ("INTO")]

/-- `containsDangerousPattern` (src/utils/security.ts lines 78-80). -/
def containsDangerousPattern (s : List Char) : Bool :=
  DANGEROUS_PATTERNS.any (fun p => searchPat p s)

/-- The `ValidationError` payload (src/utils/security.ts lines 131-136). -/
structure VError where
  message : List Char
  field : List Char
deriving DecidableEq

/-- Decidable equality for `Except`, needed to evaluate concrete runs. -/
instance {ε α : Type} [DecidableEq ε] [DecidableEq α] :
    DecidableEq (Except ε α) := fun a b =>
  match a, b with
  | Except.error e, Except.error f =>
    if h : e = f then Decidable.isTrue (by rw [h])
    else Decidable.isFalse (by intro hc; cases hc; exact h rfl)
  | Except.error _, Except.ok _ => Decidable.isFalse (by intro hc; cases hc)
  | Except.ok _, Except.error _ => Decidable.isFalse (by intro hc; cases hc)
  | Except.ok x, Except.ok y =>
    if h : x = y then Decidable.isTrue (by rw [h])
    else Decidable.isFalse (by intro hc; cases hc; exact h rfl)

/-- `searchQuerySchema.parse` (src/utils/security.ts lines 14-17): zod
runs `.min(1)` and `.max(500)` on the raw string, in that order, and only
then applies the `.transform(val => val.trim())`. -/
def searchQuerySchemaParse (s : List Char) : Except Unit (List Char) :=
  if s.length < 1 then Except.error ()
  else if 500 < s.length then Except.error ()
  else Except.ok (jsTrim s)

/-- `validateSearchQuery` (src/utils/security.ts lines 155-166): schema
parse (zod failures become the generic `ValidationError`), then the
dangerous-pattern scan on the validated (trimmed) text. -/
def validateSearchQuery (query : List Char) : Except VError (List Char) :=
  match searchQuerySchemaParse query with
  | Except.error _ =>
    Except.error ⟨cs ("Invalid search query"), cs ("searchQuery")⟩
  | Except.ok validated =>
    if containsDangerousPattern validated then
      Except.error ⟨cs ("Search query contains forbidden patterns"), cs ("searchQuery")⟩
    else Except.ok validated

/-- Modelled from the spec: the pipeline in the order claim C6 describes
it — trim FIRST, then the 500-character maximum on the TRIMMED text, then
the dangerous-pattern scan, otherwise return the trimmed text.  Used only
to compare against `validateSearchQuery`. -/
def specOrderValidateSearchQuery (query : List Char) : Except VError (List Char) :=
  if 500 < (jsTrim query).length then
    Except.error ⟨cs ("Invalid search query"), cs ("searchQuery")⟩
  else if containsDangerousPattern (jsTrim query) then
    Except.error ⟨cs ("Search query contains forbidden patterns"), cs ("searchQuery")⟩
  else Except.ok (jsTrim query)

/-- The opening brace character. -/
def lbrace : Char := Char.ofNat 123

/-- The closing brace character. -/
def rbrace : Char := Char.ofNat 125

/-- `String.prototype.startsWith`: prefix test. -/
def startsWithList : List Char → List Char → Bool
  | [], _ => true
  | _ :: _, [] => false
  | p :: ps, x :: xs => (x = p) && startsWithList ps xs

/-- `String.prototype.includes`: substring search. -/
def containsSub : List Char → List Char → Bool
  | [], pat => startsWithList pat []
  | c :: rest, pat => startsWithList pat (c :: rest) || containsSub rest pat

/-- `String.prototype.split` with a single-character separator. -/
def splitOnChar (sep : Char) : List Char → List (List Char)
  | [] => [[]]
  | c :: rest =>
    match splitOnChar sep rest with
    | [] => if c = sep then [[], []] else [[c]]
    | s :: ss => if c = sep then [] :: s :: ss else (c :: s) :: ss

/-- `Array.prototype.join` with a single-character separator. -/
def joinWithChar (sep : Char) : List (List Char) → List Char
  | [] => []
  | [x] => x
  | x :: y :: rest => x ++ sep :: joinWithChar sep (y :: rest)

/-- Operational model of `text.match(/\x7b([^\x7d]+)\x7d/g)` returning the
interiors of the matched groups: scanning left to right, an opening brace
starts a candidate, the candidate collects every following character up to
the next closing brace, and is emitted if that interior is non-empty;
scanning resumes after the closing brace (non-overlapping matches). -/
def braceScanAux : Option (List Char) → List Char → List (List Char)
  | _, [] => []
  | none, c :: rest =>
    if c = lbrace then braceScanAux (some []) rest else braceScanAux none rest
  | some acc, c :: rest =>
    if c = rbrace then
      if acc.isEmpty then braceScanAux none rest
      else acc :: braceScanAux none rest
    else braceScanAux (some (acc ++ [c])) rest

/-- The brace-delimited group scan of the parse cascade (rule b). -/
def braceScan (s : List Char) : List (List Char) := braceScanAux none s

/-- The `EmailMessage` record (src/unnamed/part_003 lines 108-115). -/
structure EmailMessage where
  subject : List Char
  sender : List Char
  dateSent : List Char
  content : List Char
  isRead : Bool
  mailbox : List Char
deriving DecidableEq

/-- A record as delivered by `JSON.parse` for this code's purposes: the
fields the mappers read, each possibly absent. -/
structure JsonRec where
  subject : Option (List Char)
  sender : Option (List Char)
  date : Option (List Char)
  content : Option (List Char)
  mailbox : Option (List Char)
  boxName : Option (List Char)
  isRead : Option Bool
deriving DecidableEq

/-- The outcome of `JSON.parse` when it does not throw: an array of
records, or some non-array value. -/
inductive JsParsed
  | notArray
  | array (xs : List JsonRec)
deriving DecidableEq

/-- JavaScript `v || d` for an optional string `v`: absent and empty
strings fall back to the default. -/
def jsOrDefault (v : Option (List Char)) (d : List Char) : List Char :=
  match v with
  | none => d
  | some s => if s.isEmpty then d else s

/-- JavaScript truthiness of an optional string. -/
def truthyOpt (v : Option (List Char)) : Bool :=
  match v with
  | none => false
  | some s => !s.isEmpty

/-- `obj[key] = value` on a string-keyed object modelled as an
association list (only lookups are performed afterwards). -/
def assocSet (m : List (List Char × List Char)) (k v : List Char) :
    List (List Char × List Char) :=
  m.filter (fun p => p.1 != k) ++ [(k, v)]

/-- `obj[key]` lookup. -/
def assocGet (m : List (List Char × List Char)) (k : List Char) :
    Option (List Char) :=
  (m.find? (fun p => p.1 == k)).map (fun p => p.2)

/-- Rule (b) per-group parsing of `getUnreadMails` (src/unnamed/part_003
lines 194-218): split the group interior on commas, split each piece on
the first colon into a trimmed key/value pair, and accept the group only
if it yields a truthy `subject` or `sender`; accepted groups become
records with per-field defaults (`new Date().toString()` is the `nowStr`
parameter). -/
def parseGroup (nowStr : List Char) (interior : List Char) : Option EmailMessage :=
  let emailData := (splitOnChar ',' interior).foldl (fun acc prop =>
    match splitOnChar ':' prop with
    | [] => acc
    | [_] => acc
    | k :: v :: vs => assocSet acc (jsTrim k) (jsTrim (joinWithChar ':' (v :: vs)))) []
  if truthyOpt (assocGet emailData (cs ("subject"))) ||
      truthyOpt (assocGet emailData (cs ("sender"))) then
    some ⟨jsOrDefault (assocGet emailData (cs ("subject"))) (cs ("No subject")),
      jsOrDefault (assocGet emailData (cs ("sender"))) (cs ("Unknown sender")),
      jsOrDefault (assocGet emailData (cs ("date"))) nowStr,
      jsOrDefault (assocGet emailData (cs ("content"))) (cs ("[Content not available]")),
      false,
      jsOrDefault (assocGet emailData (cs ("mailbox"))) (cs ("Unknown mailbox"))⟩
  else none

/-- Rule (a) field defaulting of `getUnreadMails` (src/unnamed/part_003
lines 176-183). -/
def mapUnreadJson (nowStr : List Char) (r : JsonRec) : EmailMessage :=
  ⟨jsOrDefault r.subject (cs ("No subject")),
   jsOrDefault r.sender (cs ("Unknown sender")),
   jsOrDefault r.date nowStr,
   jsOrDefault r.content (cs ("[Content not available]")),
   false,
   jsOrDefault r.mailbox (cs ("Unknown mailbox"))⟩

/-- Field defaulting of `searchMails`'s JSON branch (src/unnamed/part_003
lines 422-429). -/
def mapSearchJson (nowStr : List Char) (r : JsonRec) : EmailMessage :=
  ⟨jsOrDefault r.subject (cs ("No subject")),
   jsOrDefault r.sender (cs ("Unknown sender")),
   jsOrDefault r.date nowStr,
   cs ("[Content not available through AppleScript method]"),
   (match r.isRead with | some b => b | none => false),
   jsOrDefault r.boxName (cs ("Unknown mailbox"))⟩

/-- The parsing pipeline `getUnreadMails` applies to a successful primary
AppleScript output (src/unnamed/part_003 lines 170-250): if the trimmed
text is non-empty, try rule (a) (JSON, only when the text starts with a
brace or bracket; a `JSON.parse` exception — `jsonParse` returning
`error` — is caught and skips rule (b)), then rule (b) (brace-group
scan); after the try/catch, rule (c) returns a single diagnostic record
when the raw text contains both `"subject"` and `"sender"`.  `none` means
the function falls through to the JXA section. -/
def parsePrimaryUnread (jsonParse : List Char → Except Unit JsParsed)
    (nowStr raw : List Char) : Option (List EmailMessage) :=
  let tryResult : Option (List EmailMessage) :=
    if (jsTrim raw).isEmpty then none
    else
      let ruleA : Option (Option (List EmailMessage)) :=
        if startsWithList [lbrace] raw || startsWithList ['['] raw then
          match jsonParse raw with
          | Except.error _ => none
          | Except.ok JsParsed.notArray => some none
          | Except.ok (JsParsed.array xs) =>
            if xs.isEmpty then some none
            else some (some (xs.map (mapUnreadJson nowStr)))
        else some none
      match ruleA with
      | none => none
      | some (some r) => some r
      | some none =>
        let parsedEmails := (braceScan raw).filterMap (parseGroup nowStr)
        if parsedEmails.isEmpty then none else some parsedEmails
  match tryResult with
  | some r => some r
  | none =>
    if containsSub raw (cs ("subject")) && containsSub raw (cs ("sender")) then
      some [⟨cs ("Raw AppleScript Output"), cs ("Mail System"), nowStr,
        cs ("Could not parse Mail data properly. Raw output: ") ++ raw, false,
        cs ("Debug")⟩]
    else none

/-- The primary AppleScript text of `getUnreadMails` (src/unnamed/part_003
lines 125-165), with the `limit` number interpolated at its two
occurrences. -/
def getUnreadScriptText (limit : Int) : List Char :=
  cs ("\ntell application \"Mail\"\n    set allMailboxes to every mailbox\n    set resultList to \x7b\x7d\n\n    repeat with m in allMailboxes\n        try\n            set unreadMessages to (messages of m whose read status is false)\n            if (count of unreadMessages) > 0 then\n                set msgLimit to ") ++
  (toString limit).toList ++
  cs ("\n                if (count of unreadMessages) < msgLimit then\n                    set msgLimit to (count of unreadMessages)\n                end if\n\n                repeat with i from 1 to msgLimit\n                    try\n                        set currentMsg to item i of unreadMessages\n                        set msgData to \x7bsubject:(subject of currentMsg), sender:(sender of currentMsg), ¬\n                                        date:(date sent of currentMsg) as string, mailbox:(name of m)\x7d\n\n                        try\n                            set msgContent to content of currentMsg\n                            if length of msgContent > 500 then\n                                set msgContent to (text 1 thru 500 of msgContent) & \"...\"\n                            end if\n                            set msgData to msgData & \x7bcontent:msgContent\x7d\n                        on error\n                            set msgData to msgData & \x7bcontent:\"[Content not available]\"\x7d\n                        end try\n\n                        set end of resultList to msgData\n                    end try\n                end repeat\n\n                if (count of resultList) ≥ ") ++
  (toString limit).toList ++
  cs (" then exit repeat\n            end if\n        end try\n    end repeat\n\n    return resultList\nend tell")

/-- The accounts listing script of `getUnreadMails` (src/unnamed/part_003
lines 257-264). -/
def accountsScriptText : List Char :=
  cs ("\ntell application \"Mail\"\n    set accts to \x7b\x7d\n    repeat with a in accounts\n        set end of accts to name of a\n    end repeat\n    return accts\nend tell")

/-- The unread-count listing script of `getUnreadMails` (src/unnamed/part_003
lines 268-280). -/
def unreadInfoScriptText : List Char :=
  cs ("\ntell application \"Mail\"\n    set unreadInfo to \x7b\x7d\n    repeat with m in every mailbox\n        try\n            set unreadCount to count (messages of m whose read status is false)\n            if unreadCount > 0 then\n                set end of unreadInfo to \x7bname of m, unreadCount\x7d\n            end if\n        end try\n    end repeat\n    return unreadInfo\nend tell")

/-- The external collaborators of `getUnreadMails`: the Mail-access check
(`checkMailAccess`, which can throw or report false), the AppleScript
interpreter, `JSON.parse`, and the JXA fallback. -/
structure UnreadWorld where
  mailAccess : Except (List Char) Bool
  runScript : List Char → Except (List Char) (List Char)
  jsonParse : List Char → Except Unit JsParsed
  runJxaUnread : Except (List Char) (List EmailMessage)

/-- The outer catch of `getUnreadMails` (src/unnamed/part_003 lines
347-352). -/
def wrapUnreadError (m : List Char) : List Char :=
  cs ("Error accessing mail: ") ++ m

/-- The JXA section of `getUnreadMails` (src/unnamed/part_003 lines
255-346): accounts script, unread-info script, then the JXA run; an error
anywhere propagates to the outer catch. -/
def unreadJxaSection (w : UnreadWorld) : Except (List Char) (List EmailMessage) :=
  match w.runScript accountsScriptText with
  | Except.error m => Except.error (wrapUnreadError m)
  | Except.ok _ =>
    match w.runScript unreadInfoScriptText with
    | Except.error m => Except.error (wrapUnreadError m)
    | Except.ok _ =>
      match w.runJxaUnread with
      | Except.error m => Except.error (wrapUnreadError m)
      | Except.ok mails => Except.ok mails

/-- `getUnreadMails` (src/unnamed/part_003 lines 117-353): access check,
primary AppleScript attempt whose output goes through
`parsePrimaryUnread`, JXA section as fallback (also when the primary
script throws), outer catch wrapping errors. -/
def getUnreadMailsM (w : UnreadWorld) (nowStr : List Char) (limit : Int) :
    Except (List Char) (List EmailMessage) :=
  match w.mailAccess with
  | Except.error m => Except.error (wrapUnreadError m)
  | Except.ok false => Except.ok []
  | Except.ok true =>
    match w.runScript (getUnreadScriptText limit) with
    | Except.error _ => unreadJxaSection w
    | Except.ok raw =>
      match parsePrimaryUnread w.jsonParse nowStr raw with
      | some emails => Except.ok emails
      | none => unreadJxaSection w

/-- The fields of `securityConfig` (src/utils/security.ts lines 258-264)
that the operations read. -/
structure SecurityConfig where
  enableRateLimiting : Bool
  enableAuditLogging : Bool
  authToken : Option String
  maxMessageLength : Int
  maxSearchResults : Int

/-- An `AuditLogEntry` as recorded by the `auditLogger.log` call of
`sendMail` (src/unnamed/part_003 lines 570-579): operation name, the
detail set (`to`, the subject capped at 50 characters, `cc`, `bcc`),
success flag, and error text if any. -/
structure AuditEntry where
  operation : List Char
  detailTo : List Char
  detailSubject : List Char
  detailCc : Option (List Char)
  detailBcc : Option (List Char)
  success : Bool
  error : Option (List Char)
deriving DecidableEq

/-- Observable external actions of an operation, in order of occurrence:
rate-limiter consultations, the Mail-access check, AppleScript
invocations, JXA invocations, and audit-log appends. -/
inductive MailEvent
  | rateChecked (cls : List Char) (allowed : Bool)
  | accessCheck
  | scriptRun (text : List Char)
  | jxaRun
  | auditLogged (entry : AuditEntry)
deriving DecidableEq

/-- Whether an event is an audit-log append. -/
def isAuditEvent : MailEvent → Bool
  | MailEvent.auditLogged _ => true
  | _ => false

/-- The ensure-Mail-is-running script (src/unnamed/part_003 lines 376-380
and 530-534). -/
def ensureMailRunningScript : List Char :=
  cs ("\nif application \"Mail\" is not running then\n    tell application \"Mail\" to activate\n    delay 2\nend if")

/-- The primary AppleScript text of `searchMails` (src/unnamed/part_003
lines 384-413) with the escaped search term and the sanitized limit
interpolated. -/
def searchScriptText (validated : List Char) (safeLimit : Int) : List Char :=
  cs ("\ntell application \"Mail\"\n    set searchString to \"") ++
  escapeAppleScriptString validated ++
  cs ("\"\n    set foundMsgs to \x7b\x7d\n    set allBoxes to every mailbox\n\n    repeat with currentBox in allBoxes\n        try\n            set boxMsgs to (messages of currentBox whose (subject contains searchString) or (content contains searchString))\n            set foundMsgs to foundMsgs & boxMsgs\n            if (count of foundMsgs) ≥ ") ++
  (toString safeLimit).toList ++
  cs (" then exit repeat\n        end try\n    end repeat\n\n    set resultList to \x7b\x7d\n    set msgCount to (count of foundMsgs)\n    if msgCount > ") ++
  (toString safeLimit).toList ++
  cs (" then set msgCount to ") ++
  (toString safeLimit).toList ++
  cs ("\n\n    repeat with i from 1 to msgCount\n        try\n            set currentMsg to item i of foundMsgs\n            set msgInfo to \x7bsubject:subject of currentMsg, sender:sender of currentMsg, ¬\n                            date:(date sent of currentMsg) as string, isRead:read status of currentMsg, ¬\n                            boxName:name of (mailbox of currentMsg)\x7d\n            set end of resultList to msgInfo\n        end try\n    end repeat\n\n    return resultList\nend tell")

/-- The external collaborators of `searchMails`. -/
structure SearchWorld where
  mailAccess : Except (List Char) Bool
  runScript : List Char → Except (List Char) (List Char)
  jsonParse : List Char → Except Unit JsParsed
  runJxaSearch : Except (List Char) (List EmailMessage)

/-- A complete run of `searchMails`: the caller-visible result, the
ordered external events, and the final limiter states. -/
structure SearchRun where
  result : Except (List Char) (List EmailMessage)
  events : List MailEvent
  rlSearch : RateLimiter
  rlGlobal : RateLimiter

/-- The outer catch of `searchMails` (src/unnamed/part_003 lines
495-500). -/
def wrapSearchError (m : List Char) : List Char :=
  cs ("Error searching mail: ") ++ m

/-- The JXA fallback of `searchMails` (src/unnamed/part_003 lines
441-494). -/
def searchJxa (w : SearchWorld) (ev0 : List MailEvent) (rlS rlG : RateLimiter) :
    SearchRun :=
  match w.runJxaSearch with
  | Except.error m =>
    ⟨Except.error (wrapSearchError m), ev0 ++ [MailEvent.jxaRun], rlS, rlG⟩
  | Except.ok rs => ⟨Except.ok rs, ev0 ++ [MailEvent.jxaRun], rlS, rlG⟩

/-- `searchMails` after validation and rate limiting (src/unnamed/part_003
lines 371-494): Mail-access check, ensure-running script, primary script
whose non-empty output is parsed as JSON only (a parse failure or
non-array or empty array falls through), JXA fallback. -/
def searchMailsAfterRate (w : SearchWorld) (nowStr validated : List Char)
    (safeLimit : Int) (ev0 : List MailEvent) (rlS rlG : RateLimiter) : SearchRun :=
  match w.mailAccess with
  | Except.error m =>
    ⟨Except.error (wrapSearchError m), ev0 ++ [MailEvent.accessCheck], rlS, rlG⟩
  | Except.ok false => ⟨Except.ok [], ev0 ++ [MailEvent.accessCheck], rlS, rlG⟩
  | Except.ok true =>
    match w.runScript ensureMailRunningScript with
    | Except.error m =>
      ⟨Except.error (wrapSearchError m),
        ev0 ++ [MailEvent.accessCheck, MailEvent.scriptRun ensureMailRunningScript],
        rlS, rlG⟩
    | Except.ok _ =>
      match w.runScript (searchScriptText validated safeLimit) with
      | Except.error _ =>
        searchJxa w
          (ev0 ++ [MailEvent.accessCheck, MailEvent.scriptRun ensureMailRunningScript,
            MailEvent.scriptRun (searchScriptText validated safeLimit)]) rlS rlG
      | Except.ok asResult =>
        if asResult.isEmpty then
          searchJxa w
            (ev0 ++ [MailEvent.accessCheck, MailEvent.scriptRun ensureMailRunningScript,
              MailEvent.scriptRun (searchScriptText validated safeLimit)]) rlS rlG
        else
          match w.jsonParse asResult with
          | Except.error _ =>
            searchJxa w
              (ev0 ++ [MailEvent.accessCheck, MailEvent.scriptRun ensureMailRunningScript,
                MailEvent.scriptRun (searchScriptText validated safeLimit)]) rlS rlG
          | Except.ok JsParsed.notArray =>
            searchJxa w
              (ev0 ++ [MailEvent.accessCheck, MailEvent.scriptRun ensureMailRunningScript,
                MailEvent.scriptRun (searchScriptText validated safeLimit)]) rlS rlG
          | Except.ok (JsParsed.array xs) =>
            if xs.isEmpty then
              searchJxa w
                (ev0 ++ [MailEvent.accessCheck, MailEvent.scriptRun ensureMailRunningScript,
                  MailEvent.scriptRun (searchScriptText validated safeLimit)]) rlS rlG
            else
              ⟨Except.ok (xs.map (mapSearchJson nowStr)),
                ev0 ++ [MailEvent.accessCheck, MailEvent.scriptRun ensureMailRunningScript,
                  MailEvent.scriptRun (searchScriptText validated safeLimit)], rlS, rlG⟩

/-- `searchMails` (src/unnamed/part_003 lines 355-501): validate the
query, sanitize the limit, consult the search limiter then (only if it
allowed) the global limiter when rate limiting is enabled, then run the
attempt pipeline; every thrown error is wrapped by the outer catch.  The
function performs no audit logging. -/
def searchMailsM (cfg : SecurityConfig) (rlS rlG : RateLimiter) (now : Nat)
    (w : SearchWorld) (nowStr : List Char) (searchTerm : List Char)
    (limit : Option ℚ) : SearchRun :=
  match validateSearchQuery searchTerm with
  | Except.error e =>
    ⟨Except.error (wrapSearchError e.message), [], rlS, rlG⟩
  | Except.ok validated =>
    if cfg.enableRateLimiting then
      match rlS.check ("global") now with
      | (ok1, rlS1) =>
        if ok1 then
          match rlG.check ("global") now with
          | (ok2, rlG1) =>
            if ok2 then
              searchMailsAfterRate w nowStr validated
                (sanitizeLimit limit cfg.maxSearchResults)
                [MailEvent.rateChecked (cs ("search")) true,
                  MailEvent.rateChecked (cs ("global")) true] rlS1 rlG1
            else
              ⟨Except.error (wrapSearchError (cs ("Rate limit exceeded. Please try again later."))),
                [MailEvent.rateChecked (cs ("search")) true,
                  MailEvent.rateChecked (cs ("global")) false], rlS1, rlG1⟩
        else
          ⟨Except.error (wrapSearchError (cs ("Rate limit exceeded. Please try again later."))),
            [MailEvent.rateChecked (cs ("search")) false], rlS1, rlG⟩
    else
      searchMailsAfterRate w nowStr validated
        (sanitizeLimit limit cfg.maxSearchResults) [] rlS rlG

/-- `messageContentSchema.parse` (src/utils/security.ts lines 19-21):
`.min(1)` then `.max(10000)`, no transform. -/
def messageContentSchemaParse (s : List Char) : Except Unit (List Char) :=
  if s.length < 1 then Except.error ()
  else if 10000 < s.length then Except.error ()
  else Except.ok s

/-- `validateMessageContent` (src/utils/security.ts lines 168-179). -/
def validateMessageContentM (content : List Char) : Except VError (List Char) :=
  match messageContentSchemaParse content with
  | Except.error _ =>
    Except.error ⟨cs ("Invalid message content"), cs ("message")⟩
  | Except.ok v =>
    if containsDangerousPattern v then
      Except.error ⟨cs ("Message contains forbidden patterns"), cs ("message")⟩
    else Except.ok v

/-- `validateEmail` (src/utils/security.ts lines 147-153): the zod
`.email()` regular expression is library code outside this repository and
is taken as the oracle `emailValid`; `.max(254)` is the explicit length
bound; any failure becomes the single `ValidationError`. -/
def validateEmailM (emailValid : List Char → Bool) (e : List Char) :
    Except VError (List Char) :=
  if emailValid e = true ∧ e.length ≤ 254 then Except.ok e
  else Except.error ⟨cs ("Invalid email address"), cs ("email")⟩

/-- `validatedCc ? escapeAppleScriptString(validatedCc) : ""`
(src/unnamed/part_003 lines 540-541). -/
def escOrEmpty (v : Option (List Char)) : List Char :=
  if truthyOpt v then escapeAppleScriptString (v.getD []) else []

/-- The script `sendMail` builds through `AppleScriptBuilder`
(src/unnamed/part_003 lines 544-563): `tell` line (application name
escaped by the builder), raw lines with the escaped values interpolated,
conditional cc/bcc lines, and `build()` joining with newlines. -/
def buildSendMailScript (vTo vSubject vBody : List Char)
    (vCc vBcc : Option (List Char)) : List Char :=
  joinWithChar '\n'
    ([cs ("tell application \"") ++ escapeAppleScriptString (cs ("Mail")) ++ cs ("\""),
      cs ("set newMessage to make new outgoing message with properties \x7bsubject:\"") ++
        escapeAppleScriptString vSubject ++ cs ("\", content:\"") ++
        escapeAppleScriptString vBody ++ cs ("\", visible:true\x7d"),
      cs ("tell newMessage"),
      cs ("make new to recipient with properties \x7baddress:\"") ++
        escapeAppleScriptString vTo ++ cs ("\"\x7d")] ++
    (if truthyOpt vCc then
      [cs ("make new cc recipient with properties \x7baddress:\"") ++
        escOrEmpty vCc ++ cs ("\"\x7d")] else []) ++
    (if truthyOpt vBcc then
      [cs ("make new bcc recipient with properties \x7baddress:\"") ++
        escOrEmpty vBcc ++ cs ("\"\x7d")] else []) ++
    [cs ("end tell"), cs ("send newMessage"), cs ("return \"success\""),
      cs ("end tell")])

/-- The external collaborators of `sendMail`. -/
structure SendWorld where
  emailValid : List Char → Bool
  mailAccess : Except (List Char) Bool
  runScript : List Char → Except (List Char) (List Char)
  runJxaSend : Except (List Char) (List Char)

/-- A complete run of `sendMail`: the caller-visible result (`ok none`
models the `undefined` return of the non-"success" non-throwing branch),
the ordered external events, and the final limiter states. -/
structure SendRun where
  result : Except (List Char) (Option (List Char))
  events : List MailEvent
  rlEmails : RateLimiter
  rlGlobal : RateLimiter

/-- The outer catch of `sendMail` (src/unnamed/part_003 lines 634-639). -/
def wrapSendError (m : List Char) : List Char :=
  cs ("Error sending mail: ") ++ m

/-- The JXA fallback of `sendMail` (src/unnamed/part_003 lines 588-632):
a result starting with "JXA error:" is thrown (and wrapped by the outer
catch); otherwise the success message is built from the RAW `to` and
`subject` arguments.  No audit entry is appended on this path. -/
def sendMailJxaFallback (w : SendWorld) (toAddr subject : List Char)
    (ev0 : List MailEvent) (rlE rlG : RateLimiter) : SendRun :=
  match w.runJxaSend with
  | Except.error m =>
    ⟨Except.error (wrapSendError m), ev0 ++ [MailEvent.jxaRun], rlE, rlG⟩
  | Except.ok jr =>
    if startsWithList (cs ("JXA error:")) jr then
      ⟨Except.error (wrapSendError jr), ev0 ++ [MailEvent.jxaRun], rlE, rlG⟩
    else
      ⟨Except.ok (some (cs ("Email sent to ") ++ toAddr ++ cs (" with subject \"") ++
        subject ++ cs ("\""))), ev0 ++ [MailEvent.jxaRun], rlE, rlG⟩

/-- `sendMail` after validation and rate limiting (src/unnamed/part_003
lines 525-633): Mail-access check (a false report throws "Could not
access Mail app"), ensure-running script, the built send script; on
result "success" an audit entry is appended (only when audit logging is
enabled) and the success message returned; on any other script result the
function returns `undefined` with no audit entry; on a script error the
JXA fallback runs with no audit entry on any of its outcomes. -/
def sendMailAfterRate (cfg : SecurityConfig) (w : SendWorld)
    (toAddr subject vTo vSubject vBody : List Char) (vCc vBcc : Option (List Char))
    (ev0 : List MailEvent) (rlE rlG : RateLimiter) : SendRun :=
  match w.mailAccess with
  | Except.error m =>
    ⟨Except.error (wrapSendError m), ev0 ++ [MailEvent.accessCheck], rlE, rlG⟩
  | Except.ok false =>
    ⟨Except.error (wrapSendError (cs ("Could not access Mail app"))),
      ev0 ++ [MailEvent.accessCheck], rlE, rlG⟩
  | Except.ok true =>
    match w.runScript ensureMailRunningScript with
    | Except.error m =>
      ⟨Except.error (wrapSendError m),
        ev0 ++ [MailEvent.accessCheck, MailEvent.scriptRun ensureMailRunningScript],
        rlE, rlG⟩
    | Except.ok _ =>
      match w.runScript (buildSendMailScript vTo vSubject vBody vCc vBcc) with
      | Except.ok r =>
        if r = cs ("success") then
          if cfg.enableAuditLogging then
            ⟨Except.ok (some (cs ("Email sent to ") ++ vTo ++ cs (" with subject \"") ++
              vSubject ++ cs ("\""))),
              ev0 ++ [MailEvent.accessCheck, MailEvent.scriptRun ensureMailRunningScript,
                MailEvent.scriptRun (buildSendMailScript vTo vSubject vBody vCc vBcc),
                MailEvent.auditLogged
                  ⟨cs ("sendMail"), vTo, vSubject.take 50, vCc, vBcc, true, none⟩],
              rlE, rlG⟩
          else
            ⟨Except.ok (some (cs ("Email sent to ") ++ vTo ++ cs (" with subject \"") ++
              vSubject ++ cs ("\""))),
              ev0 ++ [MailEvent.accessCheck, MailEvent.scriptRun ensureMailRunningScript,
                MailEvent.scriptRun (buildSendMailScript vTo vSubject vBody vCc vBcc)],
              rlE, rlG⟩
        else
          ⟨Except.ok none,
            ev0 ++ [MailEvent.accessCheck, MailEvent.scriptRun ensureMailRunningScript,
              MailEvent.scriptRun (buildSendMailScript vTo vSubject vBody vCc vBcc)],
            rlE, rlG⟩
      | Except.error _ =>
        sendMailJxaFallback w toAddr subject
          (ev0 ++ [MailEvent.accessCheck, MailEvent.scriptRun ensureMailRunningScript,
            MailEvent.scriptRun (buildSendMailScript vTo vSubject vBody vCc vBcc)])
          rlE rlG

/-- The `cc ? validateEmail(cc) : undefined` step of `sendMail`
(src/unnamed/part_003 lines 515-516): a falsy (absent or empty) argument
skips validation and stays `undefined`. -/
def validateOptEmail (emailValid : List Char → Bool) (v : Option (List Char)) :
    Except VError (Option (List Char)) :=
  match v with
  | none => Except.ok none
  | some c =>
    if c.isEmpty then Except.ok none
    else
      match validateEmailM emailValid c with
      | Except.error e => Except.error e
      | Except.ok x => Except.ok (some x)

/-- `sendMail` (src/unnamed/part_003 lines 503-640): validate `to`,
`subject`, `body`, `cc`, `bcc` in that order; consult the emails limiter
then (only if it allowed) the global limiter when rate limiting is
enabled; then the attempt pipeline.  Thrown errors are wrapped by the
outer catch. -/
def sendMailM (cfg : SecurityConfig) (rlE rlG : RateLimiter) (now : Nat)
    (w : SendWorld) (toAddr subject body : List Char) (cc bcc : Option (List Char)) :
    SendRun :=
  match validateEmailM w.emailValid toAddr with
  | Except.error e => ⟨Except.error (wrapSendError e.message), [], rlE, rlG⟩
  | Except.ok vTo =>
    match validateMessageContentM subject with
    | Except.error e => ⟨Except.error (wrapSendError e.message), [], rlE, rlG⟩
    | Except.ok vSubject =>
      match validateMessageContentM body with
      | Except.error e => ⟨Except.error (wrapSendError e.message), [], rlE, rlG⟩
      | Except.ok vBody =>
        match validateOptEmail w.emailValid cc with
        | Except.error e => ⟨Except.error (wrapSendError e.message), [], rlE, rlG⟩
        | Except.ok vCc =>
          match validateOptEmail w.emailValid bcc with
          | Except.error e => ⟨Except.error (wrapSendError e.message), [], rlE, rlG⟩
          | Except.ok vBcc =>
            if cfg.enableRateLimiting then
              match rlE.check ("global") now with
              | (ok1, rlE1) =>
                if ok1 then
                  match rlG.check ("global") now with
                  | (ok2, rlG1) =>
                    if ok2 then
                      sendMailAfterRate cfg w toAddr subject vTo vSubject vBody vCc vBcc
                        [MailEvent.rateChecked (cs ("emails")) true,
                          MailEvent.rateChecked (cs ("global")) true] rlE1 rlG1
                    else
                      ⟨Except.error (wrapSendError
                          (cs ("Rate limit exceeded. Please try again later."))),
                        [MailEvent.rateChecked (cs ("emails")) true,
                          MailEvent.rateChecked (cs ("global")) false], rlE1, rlG1⟩
                else
                  ⟨Except.error (wrapSendError
                      (cs ("Rate limit exceeded. Please try again later."))),
                    [MailEvent.rateChecked (cs ("emails")) false], rlE1, rlG⟩
            else
              sendMailAfterRate cfg w toAddr subject vTo vSubject vBody vCc vBcc [] rlE rlG

/-- The first `ValidationError` thrown by `sendMail`'s validation prologue
(src/unnamed/part_003 lines 512-516), in the source's order: `to`,
`subject`, `body`, `cc`, `bcc`; `none` when every validator passes. -/
def firstSendValidationError (emailValid : List Char → Bool)
    (toAddr subject body : List Char) (cc bcc : Option (List Char)) :
    Option VError :=
  match validateEmailM emailValid toAddr with
  | Except.error e => some e
  | Except.ok _ =>
    match validateMessageContentM subject with
    | Except.error e => some e
    | Except.ok _ =>
      match validateMessageContentM body with
      | Except.error e => some e
      | Except.ok _ =>
        match validateOptEmail emailValid cc with
        | Except.error e => some e
        | Except.ok _ =>
          match validateOptEmail emailValid bcc with
          | Except.error e => some e
          | Except.ok _ => none

theorem replaceAllChar_append (t : Char) (r : List Char) (x y : List Char) :
    replaceAllChar t r (x ++ y) = replaceAllChar t r x ++ replaceAllChar t r y := by
  induction x with
  | nil => simp [replaceAllChar]
  | cons c rest ih => simp [replaceAllChar, ih]

theorem escapeAppleScriptString_cons (c : Char) (s : List Char) :
    escapeAppleScriptString (c :: s) = escChar c ++ escapeAppleScriptString s := by
  by_cases h1 : c = '\\'
  · subst h1
    simp [escapeAppleScriptString, replaceAllChar, replaceAllChar_append, escChar]
  by_cases h2 : c = '"'
  · subst h2
    simp [escapeAppleScriptString, replaceAllChar, replaceAllChar_append, escChar]
  by_cases h3 : c = '\n'
  · subst h3
    simp [escapeAppleScriptString, replaceAllChar, replaceAllChar_append, escChar]
  by_cases h4 : c = '\r'
  · subst h4
    simp [escapeAppleScriptString, replaceAllChar, replaceAllChar_append, escChar]
  by_cases h5 : c = '\t'
  · subst h5
    simp [escapeAppleScriptString, replaceAllChar, replaceAllChar_append, escChar]
  · simp [escapeAppleScriptString, replaceAllChar, replaceAllChar_append, escChar,
      h1, h2, h3, h4, h5]

theorem unescape_cons_of_ne (c : Char) (t : List Char) (h : c ≠ '\\') :
    unescapeAppleScriptString (c :: t) = c :: unescapeAppleScriptString t := by
  cases t with
  | nil => rfl
  | cons b rest => simp [unescapeAppleScriptString, h]

theorem unescape_escChar (c : Char) (t : List Char) :
    unescapeAppleScriptString (escChar c ++ t) = c :: unescapeAppleScriptString t := by
  by_cases h1 : c = '\\'
  · subst h1; simp [escChar, unescapeAppleScriptString]
  by_cases h2 : c = '"'
  · subst h2; simp [escChar, unescapeAppleScriptString]
  by_cases h3 : c = '\n'
  · subst h3; simp [escChar, unescapeAppleScriptString]
  by_cases h4 : c = '\r'
  · subst h4; simp [escChar, unescapeAppleScriptString]
  by_cases h5 : c = '\t'
  · subst h5; simp [escChar, unescapeAppleScriptString]
  · rw [show escChar c = [c] by simp [escChar, h1, h2, h3, h4, h5]]
    exact unescape_cons_of_ne c t h1

/-- C1: unescaping (left-to-right mapping of each two-character escape
sequence back to its literal) exactly reverses `escapeAppleScriptString`
for every string. -/
theorem unescape_escapeAppleScriptString (s : List Char) :
    unescapeAppleScriptString (escapeAppleScriptString s) = s := by
  induction s with
  | nil => rfl
  | cons c rest ih =>
    rw [escapeAppleScriptString_cons, unescape_escChar, ih]

theorem getSub_of_no_dollar (rep b m a : List Char) (h : '$' ∉ rep) :
    getSub rep b m a = rep := by
  induction rep with
  | nil => rfl
  | cons c rest ih =>
    have hc : c ≠ '$' := fun hc => h (hc ▸ List.mem_cons_self c rest)
    have hrest : '$' ∉ rest := fun hm => h (List.mem_cons_of_mem c hm)
    cases rest with
    | nil => simp [getSub, hc]
    | cons d rest2 => simp [getSub, hc, ih hrest]

theorem jsReplaceQ_eq_replaceFirstQ (s rep : List Char) (h : '$' ∉ rep) :
    jsReplaceQ s rep = replaceFirstQ rep s := by
  induction s with
  | nil => rfl
  | cons c rest ih =>
    by_cases hc : c = '?'
    · subst hc
      simp [jsReplaceQ, findSplit, replaceFirstQ, getSub_of_no_dollar _ _ _ _ h]
    · cases hfs : findSplit rest with
      | none =>
        have h2 : replaceFirstQ rep rest = rest := by
          rw [← ih]; simp [jsReplaceQ, hfs]
        simp [jsReplaceQ, findSplit, hfs, hc, replaceFirstQ, h2]
      | some p =>
        obtain ⟨b, a⟩ := p
        have h1 : replaceFirstQ rep rest = b ++ rep ++ a := by
          rw [← ih]
          simp [jsReplaceQ, hfs, getSub_of_no_dollar _ _ _ _ h]
        simp [jsReplaceQ, findSplit, hfs, hc, replaceFirstQ, h1,
          getSub_of_no_dollar _ _ _ _ h]

theorem specTemplateSubst_append_no_q (x y : List Char) (rs : List (List Char))
    (h : '?' ∉ x) : specTemplateSubst (x ++ y) rs = x ++ specTemplateSubst y rs := by
  induction x with
  | nil => simp
  | cons c x' ih =>
    have hc : c ≠ '?' := fun hc => h (hc ▸ List.mem_cons_self c x')
    have hx : '?' ∉ x' := fun hm => h (List.mem_cons_of_mem c hm)
    cases rs with
    | nil => simp [specTemplateSubst]
    | cons r rs' =>
      simp [specTemplateSubst, hc, ih hx]

theorem specTemplateSubst_nil (q : List Char) : specTemplateSubst q [] = q := by
  cases q <;> rfl

theorem specTemplateSubst_replaceFirstQ (r : List Char) (hr : '?' ∉ r) :
    ∀ (q : List Char) (rs : List (List Char)),
      specTemplateSubst (replaceFirstQ r q) rs = specTemplateSubst q (r :: rs) := by
  intro q
  induction q with
  | nil => intro rs; cases rs <;> rfl
  | cons c q' ih =>
    intro rs
    by_cases hc : c = '?'
    · subst hc
      simp only [replaceFirstQ, if_pos rfl, specTemplateSubst]
      exact specTemplateSubst_append_no_q r q' rs hr
    · simp only [replaceFirstQ, if_neg hc]
      cases rs with
      | nil =>
        have h0 := ih []
        simp only [specTemplateSubst, if_neg hc]
        simpa [specTemplateSubst] using h0
      | cons r' rs'' =>
        simp only [specTemplateSubst, if_neg hc]
        rw [ih (r' :: rs'')]

/-- C2 counterexample: with the template `"? ?"` and parameters
`["?", "x"]`, the second replacement targets the `?` inserted by the first
parameter's literal, not the second `?` of the original template, so the
code's result differs from the claimed placeholder correspondence. -/
theorem parameterizeQuery_counterexample :
    parameterizeQuery (cs ("? ?")) [SqlParam.str (cs ("?")), SqlParam.str (cs ("x"))] ≠
      specTemplateSubst (cs ("? ?"))
        ([SqlParam.str (cs ("?")), SqlParam.str (cs ("x"))].map renderParam) := by
  decide

/-- C2 (amended): provided no parameter's rendered literal contains `'?'`
or `'$'`, each `?` of the original template is replaced left-to-right with
the corresponding parameter's literal, so the i-th `?` receives exactly
the i-th parameter value. -/
theorem parameterizeQuery_spec (query : List Char) (params : List SqlParam)
    (h : ∀ p ∈ params, '?' ∉ renderParam p ∧ '$' ∉ renderParam p) :
    parameterizeQuery query params = specTemplateSubst query (params.map renderParam) := by
  induction params generalizing query with
  | nil => simp [parameterizeQuery, specTemplateSubst_nil]
  | cons p ps ih =>
    have hp := h p (List.mem_cons_self p ps)
    have hps : ∀ x ∈ ps, '?' ∉ renderParam x ∧ '$' ∉ renderParam x :=
      fun x hx => h x (List.mem_cons_of_mem p hx)
    show parameterizeQuery (jsReplaceQ query (renderParam p)) ps = _
    rw [ih _ hps, jsReplaceQ_eq_replaceFirstQ _ _ hp.2,
      specTemplateSubst_replaceFirstQ _ hp.1, List.map_cons]

/-- C2 witness: a concrete run of the amended statement. -/
theorem parameterizeQuery_spec_witness :
    (∀ p ∈ [SqlParam.str (cs ("ab"))], '?' ∉ renderParam p ∧ '$' ∉ renderParam p) ∧
      parameterizeQuery (cs ("SELECT ?")) [SqlParam.str (cs ("ab"))] =
        specTemplateSubst (cs ("SELECT ?")) ([SqlParam.str (cs ("ab"))].map renderParam) :=
  ⟨by decide, parameterizeQuery_spec _ _ (by decide)⟩

theorem RateLimiter.check_none (rl : RateLimiter) (key : String) (now : Nat)
    (h : rl.limits key = none) :
    rl.check key now =
      (true, { rl with
        limits := fun k => if k = key then some ⟨1, now + rl.windowMs⟩ else rl.limits k }) := by
  simp [RateLimiter.check, h]

theorem RateLimiter.check_reset (rl : RateLimiter) (key : String) (now : Nat)
    (e : RateLimitEntry) (h : rl.limits key = some e) (hr : e.resetAt ≤ now) :
    rl.check key now =
      (true, { rl with
        limits := fun k => if k = key then some ⟨1, now + rl.windowMs⟩ else rl.limits k }) := by
  simp [RateLimiter.check, h, hr]

theorem RateLimiter.check_deny (rl : RateLimiter) (key : String) (now : Nat)
    (e : RateLimitEntry) (h : rl.limits key = some e) (hr : now < e.resetAt)
    (hc : rl.maxRequests ≤ e.count) :
    rl.check key now = (false, rl) := by
  simp [RateLimiter.check, h, Nat.not_le.2 hr, hc]

theorem RateLimiter.check_incr (rl : RateLimiter) (key : String) (now : Nat)
    (e : RateLimitEntry) (h : rl.limits key = some e) (hr : now < e.resetAt)
    (hc : e.count < rl.maxRequests) :
    rl.check key now =
      (true, { rl with
        limits := fun k =>
          if k = key then some ⟨e.count + 1, e.resetAt⟩ else rl.limits k }) := by
  simp [RateLimiter.check, h, Nat.not_le.2 hr, Nat.not_le.2 hc]

theorem RateLimiter.runChecks_under_limit (key : String) (ts : List Nat) :
    ∀ (rl : RateLimiter) (c r : Nat), rl.limits key = some ⟨c, r⟩ →
      (∀ t ∈ ts, t < r) → c + ts.length ≤ rl.maxRequests →
      (rl.runChecks key ts).1 = List.replicate ts.length true ∧
      (rl.runChecks key ts).2.limits key = some ⟨c + ts.length, r⟩ ∧
      (rl.runChecks key ts).2.maxRequests = rl.maxRequests ∧
      (rl.runChecks key ts).2.windowMs = rl.windowMs := by
  induction ts with
  | nil => intro rl c r he _ _; simp [RateLimiter.runChecks, he]
  | cons t ts ih =>
    intro rl c r he hts hc
    have ht : t < r := hts t (List.mem_cons_self t ts)
    have hlt : c < rl.maxRequests := by
      have := hc; simp [List.length_cons] at this; omega
    have hstep := RateLimiter.check_incr rl key t ⟨c, r⟩ he ht hlt
    have h2 : (rl.check key t).2.limits key = some ⟨c + 1, r⟩ := by
      rw [hstep]; simp
    have h2max : (rl.check key t).2.maxRequests = rl.maxRequests := by
      rw [hstep]
    have h2win : (rl.check key t).2.windowMs = rl.windowMs := by
      rw [hstep]
    have hrec := ih ((rl.check key t).2) (c + 1) r h2
      (fun x hx => hts x (List.mem_cons_of_mem t hx))
      (by rw [h2max]; simp [List.length_cons] at hc ⊢; omega)
    refine ⟨?_, ?_, ?_, ?_⟩
    · simp only [RateLimiter.runChecks]
      rw [show (rl.check key t).1 = true by rw [hstep], hrec.1]
      simp [List.replicate_succ]
    · simp only [RateLimiter.runChecks]
      rw [hrec.2.1]
      congr 1
      simp [List.length_cons]
      omega
    · simp only [RateLimiter.runChecks]
      rw [hrec.2.2.1, h2max]
    · simp only [RateLimiter.runChecks]
      rw [hrec.2.2.2, h2win]

/-- C3: for a limiter with `maxRequests = max0` and a 60000 ms window and a
fresh key, the first call (at `t0`) and the following `max0 - 1` calls
within the window all return true; the `(max0+1)`-th call within the
window returns false and leaves the state (so the stored count and
`resetAt`) unchanged; a call at a time `>= t0 + 60000` then returns true
and stores `count = 1`, `resetAt = now + 60000`. -/
theorem rateLimiter_check_spec (max0 : Nat) (key : String) (rl0 : RateLimiter)
    (t0 tDeny tReset : Nat) (ts : List Nat)
    (hmax : rl0.maxRequests = max0) (hwin : rl0.windowMs = 60000)
    (hnone : rl0.limits key = none) (hpos : 0 < max0)
    (hlen : ts.length = max0 - 1) (hts : ∀ t ∈ ts, t < t0 + 60000)
    (hdeny : tDeny < t0 + 60000) (hreset : t0 + 60000 ≤ tReset) :
    (rl0.check key t0).1 = true ∧
    ((rl0.check key t0).2.runChecks key ts).1 = List.replicate (max0 - 1) true ∧
    ((rl0.check key t0).2.runChecks key ts).2.limits key = some ⟨max0, t0 + 60000⟩ ∧
    (((rl0.check key t0).2.runChecks key ts).2.check key tDeny).1 = false ∧
    (((rl0.check key t0).2.runChecks key ts).2.check key tDeny).2 =
      ((rl0.check key t0).2.runChecks key ts).2 ∧
    ((((rl0.check key t0).2.runChecks key ts).2.check key tDeny).2.check key tReset).1 = true ∧
    ((((rl0.check key t0).2.runChecks key ts).2.check key tDeny).2.check key tReset).2.limits key
      = some ⟨1, tReset + 60000⟩ := by
  have h1 := RateLimiter.check_none rl0 key t0 hnone
  have h1b : (rl0.check key t0).1 = true := by rw [h1]
  have h1lim : (rl0.check key t0).2.limits key = some ⟨1, t0 + 60000⟩ := by
    rw [h1]; simp [hwin]
  have h1max : (rl0.check key t0).2.maxRequests = max0 := by rw [h1]; exact hmax
  have h1win : (rl0.check key t0).2.windowMs = 60000 := by rw [h1]; exact hwin
  have hrun := RateLimiter.runChecks_under_limit key ts ((rl0.check key t0).2)
    1 (t0 + 60000) h1lim hts (by rw [h1max]; omega)
  have hcount : 1 + ts.length = max0 := by omega
  have h2lim : ((rl0.check key t0).2.runChecks key ts).2.limits key
      = some ⟨max0, t0 + 60000⟩ := by rw [hrun.2.1, hcount]
  have h2max : ((rl0.check key t0).2.runChecks key ts).2.maxRequests = max0 := by
    rw [hrun.2.2.1, h1max]
  have h2win : ((rl0.check key t0).2.runChecks key ts).2.windowMs = 60000 := by
    rw [hrun.2.2.2, h1win]
  have hD := RateLimiter.check_deny ((rl0.check key t0).2.runChecks key ts).2 key tDeny
    ⟨max0, t0 + 60000⟩ h2lim hdeny (by rw [h2max])
  have hDfst : (((rl0.check key t0).2.runChecks key ts).2.check key tDeny).1 = false := by
    rw [hD]
  have hDsnd : (((rl0.check key t0).2.runChecks key ts).2.check key tDeny).2 =
      ((rl0.check key t0).2.runChecks key ts).2 := by rw [hD]
  have hR := RateLimiter.check_reset ((rl0.check key t0).2.runChecks key ts).2 key tReset
    ⟨max0, t0 + 60000⟩ h2lim hreset
  refine ⟨h1b, by rw [hrun.1, hlen], h2lim, hDfst, hDsnd, ?_, ?_⟩
  · rw [hDsnd, hR]
  · rw [hDsnd, hR]; simp [h2win]

/-- C3 witness: a concrete limiter with `maxRequests = 2`, key `"k"`,
calls at times 0 and 1 allowed, a third call at time 2 denied without
state change, and a call at time 60000 allowed again with a fresh entry. -/
theorem rateLimiter_check_spec_witness :
    ((RateLimiter.mk 2 60000 (fun _ => none)).limits ("k") = none ∧ 0 < 2 ∧
      ([1] : List Nat).length = 2 - 1 ∧ (∀ t ∈ ([1] : List Nat), t < 0 + 60000) ∧
      2 < 0 + 60000 ∧ 0 + 60000 ≤ 60000) ∧
    (((RateLimiter.mk 2 60000 (fun _ => none)).check ("k") 0).1 = true ∧
    (((RateLimiter.mk 2 60000 (fun _ => none)).check ("k") 0).2.runChecks ("k") [1]).1 =
      List.replicate (2 - 1) true ∧
    (((RateLimiter.mk 2 60000 (fun _ => none)).check ("k") 0).2.runChecks ("k") [1]).2.limits ("k")
      = some ⟨2, 0 + 60000⟩ ∧
    ((((RateLimiter.mk 2 60000 (fun _ => none)).check ("k") 0).2.runChecks ("k") [1]).2.check ("k") 2).1
      = false ∧
    ((((RateLimiter.mk 2 60000 (fun _ => none)).check ("k") 0).2.runChecks ("k") [1]).2.check ("k") 2).2
      = (((RateLimiter.mk 2 60000 (fun _ => none)).check ("k") 0).2.runChecks ("k") [1]).2 ∧
    (((((RateLimiter.mk 2 60000 (fun _ => none)).check ("k") 0).2.runChecks ("k") [1]).2.check ("k") 2).2.check
      ("k") 60000).1 = true ∧
    (((((RateLimiter.mk 2 60000 (fun _ => none)).check ("k") 0).2.runChecks ("k") [1]).2.check ("k") 2).2.check
      ("k") 60000).2.limits ("k") = some ⟨1, 60000 + 60000⟩) :=
  ⟨⟨rfl, by decide, by decide, by decide, by decide, by decide⟩,
    rateLimiter_check_spec 2 ("k") (RateLimiter.mk 2 60000 (fun _ => none)) 0 2 60000 [1]
      rfl rfl rfl (by decide) (by decide) (by decide) (by decide) (by decide)⟩

/-- C4: with no configured token, `checkAuthentication` accepts every
presented token (including `undefined` and the empty string); with a
configured (non-empty) token it accepts exactly the strictly equal
presented value, so any prefix or case variant is rejected. -/
theorem checkAuthentication_spec :
    (∀ t : Option String, checkAuthentication none t = true) ∧
    (∀ (c : String) (t : Option String), c ≠ "" →
      (checkAuthentication (some c) t = true ↔ t = some c)) := by
  constructor
  · intro t; simp [checkAuthentication, jsStringFalsy]
  · intro c t hc
    simp [checkAuthentication, jsStringFalsy, hc]

/-- C4 witness: with configured token `"secret"`, a prefix of it is
rejected. -/
theorem checkAuthentication_spec_witness :
    (("secret" : String) ≠ "" ∧
      (checkAuthentication (some ("secret")) (some ("secr")) = true ↔
        (some ("secr") : Option String) = some ("secret"))) ∧
    checkAuthentication none none = true :=
  ⟨⟨by decide, checkAuthentication_spec.2 ("secret") (some ("secr")) (by decide)⟩,
    checkAuthentication_spec.1 none⟩

/-- C10: if `MCP_AUTH_TOKEN` is set to the empty string, the configured
token is falsy, so `checkAuthentication` returns true for every presented
token — exactly as when the variable is unset. -/
theorem checkAuthentication_empty_token (env : String → Option String)
    (t : Option String) (h : env ("MCP_AUTH_TOKEN") = some "") :
    checkAuthentication (envAuthToken env) t = true ∧
    checkAuthentication (envAuthToken env) t = checkAuthentication none t := by
  simp [envAuthToken, h, checkAuthentication, jsStringFalsy]

/-- C10 witness: a concrete environment mapping every variable to `""`. -/
theorem checkAuthentication_empty_token_witness :
    ((fun _ : String => some "") ("MCP_AUTH_TOKEN") = some "" ∧
      checkAuthentication (envAuthToken (fun _ => some "")) (some ("x")) = true ∧
      checkAuthentication (envAuthToken (fun _ => some "")) (some ("x")) =
        checkAuthentication none (some ("x"))) :=
  ⟨rfl, checkAuthentication_empty_token (fun _ => some "") (some ("x")) rfl⟩

/-- C9: `sanitizeLimit` returns 10 on a `NaN` input or when the floored
input is below 1, otherwise the floored input capped at `max`; in
particular the claim's concrete examples. -/
theorem sanitizeLimit_spec :
    (∀ m : Int, sanitizeLimit none m = 10) ∧
    (∀ (q : ℚ) (m : Int), ⌊q⌋ < 1 → sanitizeLimit (some q) m = 10) ∧
    (∀ (q : ℚ) (m : Int), 1 ≤ ⌊q⌋ → sanitizeLimit (some q) m = min ⌊q⌋ m) ∧
    sanitizeLimit (some (-5)) 100 = 10 ∧
    sanitizeLimit (some 0) 100 = 10 ∧
    sanitizeLimit (some 37) 100 = 37 ∧
    sanitizeLimit (some 500) 100 = 100 := by
  refine ⟨fun m => rfl, ?_, ?_, ?_, ?_, ?_, ?_⟩
  · intro q m h; simp [sanitizeLimit, h]
  · intro q m h
    simp only [sanitizeLimit]
    rw [if_neg (by omega)]
  · norm_num [sanitizeLimit]
  · norm_num [sanitizeLimit]
  · norm_num [sanitizeLimit]
  · norm_num [sanitizeLimit]

/-- C9 witness: the general clauses instantiated at concrete inputs. -/
theorem sanitizeLimit_spec_witness :
    (⌊(0 : ℚ)⌋ < 1 ∧ sanitizeLimit (some 0) 200 = 10) ∧
    (1 ≤ ⌊(37 : ℚ)⌋ ∧ sanitizeLimit (some 37) 200 = min ⌊(37 : ℚ)⌋ 200) :=
  ⟨⟨by norm_num, sanitizeLimit_spec.2.1 0 200 (by norm_num)⟩,
    ⟨by norm_num, sanitizeLimit_spec.2.2.1 37 200 (by norm_num)⟩⟩

set_option maxRecDepth 100000 in
/-- C6 counterexample: 500 `'a'`s followed by a space (501 characters raw,
500 after trimming, no dangerous pattern).  The claimed order (trim before
the length check) accepts it; the code checks the raw length first and
rejects it. -/
theorem validateSearchQuery_counterexample :
    validateSearchQuery (List.replicate 500 'a' ++ [' ']) ≠
      specOrderValidateSearchQuery (List.replicate 500 'a' ++ [' ']) := by
  decide

/-- C6 (amended): `validateSearchQuery` enforces the 1..500 length bounds
on the RAW (untrimmed) input, then trims, then rejects if the trimmed
text matches a dangerous pattern, and otherwise returns the trimmed
text. -/
theorem validateSearchQuery_spec (q : List Char) :
    (q.length < 1 ∨ 500 < q.length →
      validateSearchQuery q =
        Except.error ⟨cs ("Invalid search query"), cs ("searchQuery")⟩) ∧
    (1 ≤ q.length → q.length ≤ 500 → containsDangerousPattern (jsTrim q) = true →
      validateSearchQuery q =
        Except.error ⟨cs ("Search query contains forbidden patterns"), cs ("searchQuery")⟩) ∧
    (1 ≤ q.length → q.length ≤ 500 → containsDangerousPattern (jsTrim q) = false →
      validateSearchQuery q = Except.ok (jsTrim q)) := by
  refine ⟨?_, ?_, ?_⟩
  · intro h
    rcases h with h | h
    · simp [validateSearchQuery, searchQuerySchemaParse, h]
    · unfold validateSearchQuery searchQuerySchemaParse
      rw [if_neg (by omega), if_pos h]
  · intro h1 h2 hd
    unfold validateSearchQuery searchQuerySchemaParse
    rw [if_neg (by omega), if_neg (by omega)]
    simp [hd]
  · intro h1 h2 hd
    unfold validateSearchQuery searchQuerySchemaParse
    rw [if_neg (by omega), if_neg (by omega)]
    simp [hd]

/-- C6 witness: a dangerous query is rejected after trimming, and a
benign padded query is trimmed and accepted. -/
theorem validateSearchQuery_spec_witness :
    (1 ≤ (cs ("eval x")).length ∧ (cs ("eval x")).length ≤ 500 ∧
      containsDangerousPattern (jsTrim (cs ("eval x"))) = true ∧
      validateSearchQuery (cs ("eval x")) =
        Except.error ⟨cs ("Search query contains forbidden patterns"), cs ("searchQuery")⟩) ∧
    (1 ≤ (cs (" hi ")).length ∧ (cs (" hi ")).length ≤ 500 ∧
      containsDangerousPattern (jsTrim (cs (" hi "))) = false ∧
      validateSearchQuery (cs (" hi ")) = Except.ok (jsTrim (cs (" hi ")))) :=
  ⟨⟨by decide, by decide, by decide,
      (validateSearchQuery_spec (cs ("eval x"))).2.1 (by decide) (by decide) (by decide)⟩,
    ⟨by decide, by decide, by decide,
      (validateSearchQuery_spec (cs (" hi "))).2.2 (by decide) (by decide) (by decide)⟩⟩

/-- C5: when the primary AppleScript output has non-empty trimmed text,
rule (a) yields no usable JSON array (the text does not start with a
brace/bracket, or `JSON.parse` throws, or it returns a non-array or empty
array), rule (b) accepts no brace-delimited group, and the raw text
contains both expected field-name tokens `"subject"` and `"sender"`, then
`getUnreadMails` returns success with exactly one diagnostic record —
mailbox `"Debug"`, subject `"Raw AppleScript Output"` — whose content
carries the raw output verbatim after the fixed prefix. -/
theorem getUnreadMails_raw_fallback (w : UnreadWorld) (nowStr raw : List Char)
    (limit : Int)
    (hacc : w.mailAccess = Except.ok true)
    (hrun : w.runScript (getUnreadScriptText limit) = Except.ok raw)
    (htrim : (jsTrim raw).isEmpty = false)
    (hjson : ∀ xs, w.jsonParse raw = Except.ok (JsParsed.array xs) → xs = [])
    (hbrace : (braceScan raw).filterMap (parseGroup nowStr) = [])
    (hsub : containsSub raw (cs ("subject")) = true)
    (hsend : containsSub raw (cs ("sender")) = true) :
    getUnreadMailsM w nowStr limit =
      Except.ok [⟨cs ("Raw AppleScript Output"), cs ("Mail System"), nowStr,
        cs ("Could not parse Mail data properly. Raw output: ") ++ raw, false,
        cs ("Debug")⟩] := by
  simp only [getUnreadMailsM, hacc, hrun]
  unfold parsePrimaryUnread
  by_cases hsw : (startsWithList [lbrace] raw || startsWithList ['['] raw) = true
  · cases hjp : w.jsonParse raw with
    | error e => simp [htrim, hsw, hjp, hsub, hsend]
    | ok v =>
      cases v with
      | notArray => simp [htrim, hsw, hjp, hbrace, hsub, hsend]
      | array xs =>
        have hxs := hjson xs hjp
        subst hxs
        simp [htrim, hsw, hjp, hbrace, hsub, hsend]
  · rw [Bool.not_eq_true] at hsw
    simp [htrim, hsw, hbrace, hsub, hsend]

/-- C5 witness: a concrete raw output containing both tokens but no JSON
and no brace group. -/
theorem getUnreadMails_raw_fallback_witness :
    ((UnreadWorld.mk (Except.ok true) (fun _ => Except.ok (cs ("subject sender")))
        (fun _ => Except.error ()) (Except.ok [])).mailAccess = Except.ok true ∧
      (UnreadWorld.mk (Except.ok true) (fun _ => Except.ok (cs ("subject sender")))
        (fun _ => Except.error ()) (Except.ok [])).runScript (getUnreadScriptText 10) =
        Except.ok (cs ("subject sender")) ∧
      (jsTrim (cs ("subject sender"))).isEmpty = false ∧
      (braceScan (cs ("subject sender"))).filterMap (parseGroup (cs ("now"))) = [] ∧
      containsSub (cs ("subject sender")) (cs ("subject")) = true ∧
      containsSub (cs ("subject sender")) (cs ("sender")) = true) ∧
    getUnreadMailsM
      (UnreadWorld.mk (Except.ok true) (fun _ => Except.ok (cs ("subject sender")))
        (fun _ => Except.error ()) (Except.ok []))
      (cs ("now")) 10 =
      Except.ok [⟨cs ("Raw AppleScript Output"), cs ("Mail System"), cs ("now"),
        cs ("Could not parse Mail data properly. Raw output: ") ++ cs ("subject sender"),
        false, cs ("Debug")⟩] :=
  ⟨⟨rfl, rfl, by decide, by decide, by decide, by decide⟩,
    getUnreadMails_raw_fallback
      (UnreadWorld.mk (Except.ok true) (fun _ => Except.ok (cs ("subject sender")))
        (fun _ => Except.error ()) (Except.ok []))
      (cs ("now")) (cs ("subject sender")) 10 rfl rfl (by decide)
      (fun xs h => Except.noConfusion h) (by decide) (by decide) (by decide)⟩

/-- C7 (amended): for every input a Validator rejects, the calling
operation — `searchMails` and `sendMail` alike — terminates immediately
with no rate-limiter consultation, no external script or JXA invocation,
no audit append, and the limiter states unchanged; the `ValidationError`
is however not surfaced verbatim: each operation's outer catch re-throws
a plain error whose message is the operation's fixed prefix ("Error
searching mail: " respectively "Error sending mail: ") followed by the
ValidationError's message. -/
theorem validation_short_circuit :
    (∀ (cfg : SecurityConfig) (rlS rlG : RateLimiter) (now : Nat) (w : SearchWorld)
      (nowStr searchTerm : List Char) (limit : Option ℚ) (e : VError),
      validateSearchQuery searchTerm = Except.error e →
      searchMailsM cfg rlS rlG now w nowStr searchTerm limit =
        ⟨Except.error (wrapSearchError e.message), [], rlS, rlG⟩) ∧
    (∀ (cfg : SecurityConfig) (rlE rlG : RateLimiter) (now : Nat) (w : SendWorld)
      (toAddr subject body : List Char) (cc bcc : Option (List Char)) (e : VError),
      firstSendValidationError w.emailValid toAddr subject body cc bcc = some e →
      sendMailM cfg rlE rlG now w toAddr subject body cc bcc =
        ⟨Except.error (wrapSendError e.message), [], rlE, rlG⟩) := by
  constructor
  · intro cfg rlS rlG now w nowStr searchTerm limit e h
    unfold searchMailsM
    rw [h]
  · intro cfg rlE rlG now w toAddr subject body cc bcc e h
    unfold sendMailM
    cases h1 : validateEmailM w.emailValid toAddr with
    | error e1 =>
      simp only [firstSendValidationError, h1] at h
      obtain rfl : e1 = e := by simpa using h
      rfl
    | ok v1 =>
      cases h2 : validateMessageContentM subject with
      | error e2 =>
        simp only [firstSendValidationError, h1, h2] at h
        obtain rfl : e2 = e := by simpa using h
        rfl
      | ok v2 =>
        cases h3 : validateMessageContentM body with
        | error e3 =>
          simp only [firstSendValidationError, h1, h2, h3] at h
          obtain rfl : e3 = e := by simpa using h
          rfl
        | ok v3 =>
          cases h4 : validateOptEmail w.emailValid cc with
          | error e4 =>
            simp only [firstSendValidationError, h1, h2, h3, h4] at h
            obtain rfl : e4 = e := by simpa using h
            rfl
          | ok v4 =>
            cases h5 : validateOptEmail w.emailValid bcc with
            | error e5 =>
              simp only [firstSendValidationError, h1, h2, h3, h4, h5] at h
              obtain rfl : e5 = e := by simpa using h
              rfl
            | ok v5 =>
              simp only [firstSendValidationError, h1, h2, h3, h4, h5] at h
              exact absurd h (by simp)

/-- C7 counterexample: with the empty search term the surfaced error text
is the wrapped "Error searching mail: Invalid search query", not the
ValidationError message verbatim. -/
theorem searchMails_validation_counterexample :
    (searchMailsM (SecurityConfig.mk true true none 10000 100)
        (RateLimiter.mk 30 60000 (fun _ => none))
        (RateLimiter.mk 100 60000 (fun _ => none)) 0
        (SearchWorld.mk (Except.ok false) (fun _ => Except.error [])
          (fun _ => Except.error ()) (Except.error []))
        [] (cs ("")) none).result ≠
      Except.error (cs ("Invalid search query")) ∧
    (searchMailsM (SecurityConfig.mk true true none 10000 100)
        (RateLimiter.mk 30 60000 (fun _ => none))
        (RateLimiter.mk 100 60000 (fun _ => none)) 0
        (SearchWorld.mk (Except.ok false) (fun _ => Except.error [])
          (fun _ => Except.error ()) (Except.error []))
        [] (cs ("")) none).result =
      Except.error (cs ("Error searching mail: Invalid search query")) := by
  constructor
  · decide
  · decide

/-- C7 witness: the amended statement at the empty search term for
`searchMails` and at an invalid `to` address for `sendMail`. -/
theorem validation_short_circuit_witness :
    (validateSearchQuery (cs ("")) =
        Except.error ⟨cs ("Invalid search query"), cs ("searchQuery")⟩ ∧
      searchMailsM (SecurityConfig.mk true true none 10000 100)
        (RateLimiter.mk 30 60000 (fun _ => none))
        (RateLimiter.mk 100 60000 (fun _ => none)) 0
        (SearchWorld.mk (Except.ok false) (fun _ => Except.error [])
          (fun _ => Except.error ()) (Except.error []))
        [] (cs ("")) none =
        ⟨Except.error (wrapSearchError
            (VError.mk (cs ("Invalid search query")) (cs ("searchQuery"))).message),
          [], RateLimiter.mk 30 60000 (fun _ => none),
          RateLimiter.mk 100 60000 (fun _ => none)⟩) ∧
    (firstSendValidationError
        (SendWorld.mk (fun _ => false) (Except.ok true) (fun _ => Except.error [])
          (Except.error [])).emailValid
        (cs ("bad")) (cs ("hi")) (cs ("yo")) none none =
        some ⟨cs ("Invalid email address"), cs ("email")⟩ ∧
      sendMailM (SecurityConfig.mk true true none 10000 100)
        (RateLimiter.mk 20 60000 (fun _ => none))
        (RateLimiter.mk 100 60000 (fun _ => none)) 0
        (SendWorld.mk (fun _ => false) (Except.ok true) (fun _ => Except.error [])
          (Except.error []))
        (cs ("bad")) (cs ("hi")) (cs ("yo")) none none =
        ⟨Except.error (wrapSendError
            (VError.mk (cs ("Invalid email address")) (cs ("email"))).message),
          [], RateLimiter.mk 20 60000 (fun _ => none),
          RateLimiter.mk 100 60000 (fun _ => none)⟩) :=
  ⟨⟨by decide,
      validation_short_circuit.1 (SecurityConfig.mk true true none 10000 100)
        (RateLimiter.mk 30 60000 (fun _ => none))
        (RateLimiter.mk 100 60000 (fun _ => none)) 0
        (SearchWorld.mk (Except.ok false) (fun _ => Except.error [])
          (fun _ => Except.error ()) (Except.error []))
        [] (cs ("")) none ⟨cs ("Invalid search query"), cs ("searchQuery")⟩ (by decide)⟩,
    ⟨by decide,
      validation_short_circuit.2 (SecurityConfig.mk true true none 10000 100)
        (RateLimiter.mk 20 60000 (fun _ => none))
        (RateLimiter.mk 100 60000 (fun _ => none)) 0
        (SendWorld.mk (fun _ => false) (Except.ok true) (fun _ => Except.error [])
          (Except.error []))
        (cs ("bad")) (cs ("hi")) (cs ("yo")) none none
        ⟨cs ("Invalid email address"), cs ("email")⟩ (by decide)⟩⟩

/-- C8: evaluation of `sendMail` at a total failure — valid inputs, the
primary AppleScript send throws, the JXA fallback reports "JXA error:
...", audit logging enabled — shows the final result is the wrapped
failure while NO audit entry is appended anywhere in the run,
contradicting the claim that an entry with success:false and the
secondary's error text is recorded. -/
theorem sendMail_no_audit_on_total_failure :
    (sendMailM (SecurityConfig.mk false true none 10000 100)
        (RateLimiter.mk 20 60000 (fun _ => none))
        (RateLimiter.mk 100 60000 (fun _ => none)) 0
        (SendWorld.mk (fun _ => true) (Except.ok true)
          (fun s => if s = ensureMailRunningScript then Except.ok []
            else Except.error (cs ("boom")))
          (Except.ok (cs ("JXA error: jxa failed"))))
        (cs ("a@b.c")) (cs ("hi")) (cs ("yo")) none none).result =
      Except.error (cs ("Error sending mail: JXA error: jxa failed")) ∧
    ((sendMailM (SecurityConfig.mk false true none 10000 100)
        (RateLimiter.mk 20 60000 (fun _ => none))
        (RateLimiter.mk 100 60000 (fun _ => none)) 0
        (SendWorld.mk (fun _ => true) (Except.ok true)
          (fun s => if s = ensureMailRunningScript then Except.ok []
            else Except.error (cs ("boom")))
          (Except.ok (cs ("JXA error: jxa failed"))))
        (cs ("a@b.c")) (cs ("hi")) (cs ("yo")) none none).events.any isAuditEvent) =
      false := by
  constructor
  · decide
  · decide
